import Mathlib

/-!
Shallow embedding of the OpenAI realtime bridge server (src/index.js).

The source file contains two concatenated variants of the server; the second
variant (the one with Twilio custom parameters) is the fuller one and is the
one embedded here.  Where the two variants overlap (the OpenAI event handler,
the media forwarding guard, `handleCallEnd`, the cleanup sweep) their logic is
identical, so the embedding covers both.

Modelling conventions:
* JavaScript string values that may be `null`/`undefined` become
  `Option String`; JavaScript truthiness of such a value is `jsTruthy`
  (`null`/`undefined` and the empty string are falsy).
* The global `sessions` `Map` becomes an association list `SessionMap`
  (`Map` keys are unique; lookup returns the first matching entry).
* `Date.now()` becomes an explicit `now : Nat` argument.
* Network sends and the `fetch` call become explicit output actions /
  an abstract `FetchOutcome` argument; the asynchronous `fetch` cannot
  change the decision logic, which is reflected by the outcome influencing
  only the produced log events.
-/

namespace Bridge

/-- Speaker role of a transcript entry (`role` field pushed in
`handleOpenAIEvent`). -/
inductive Role
  | user
  | agent
deriving DecidableEq

/-- One transcript entry: `{ role, text, timestamp }` as pushed by
`handleOpenAIEvent`. -/
structure TranscriptEntry where
  role : Role
  text : String
  timestamp : Nat
deriving DecidableEq

/-- A session record as stored in the `sessions` map by `POST /session`.
`ended` models the `_ended` flag, absent (falsy) until `handleCallEnd`
sets it. -/
structure Session where
  prompt : String
  callId : Option String
  contactName : String
  voiceId : String
  language : String
  transcript : List TranscriptEntry
  createdAt : Nat
  ended : Bool := false
deriving DecidableEq

/-- The global `sessions` map, as an association list with unique keys. -/
abbrev SessionMap := List (String × Session)

/-- JavaScript truthiness of a nullable string: `null`/`undefined` and the
empty string are falsy. -/
def jsTruthy : Option String → Bool
  | none => false
  | some s => s ≠ ""

/-- Lookup in the `sessions` map (`sessions.get(sid)`). -/
def find : SessionMap → String → Option Session
  | [], _ => none
  | (k, s) :: rest, sid => if k = sid then some s else find rest sid

/-- Update the session object stored under a key, in place
(JavaScript mutates the object held in the map). -/
def updateSession : SessionMap → String → (Session → Session) → SessionMap
  | [], _, _ => []
  | (k, s) :: rest, sid, f =>
    if k = sid then (k, f s) :: rest else (k, s) :: updateSession rest sid f

/-- The `session._ended = true` mutation of `handleCallEnd`. -/
def markEnded (m : SessionMap) (sid : String) : SessionMap :=
  updateSession m sid (fun s => { s with ended := true })

/-- Remove a key from the map (`sessions.delete(sid)`). -/
def eraseSession : SessionMap → String → SessionMap
  | [], _ => []
  | (k, s) :: rest, sid =>
    if k = sid then eraseSession rest sid else (k, s) :: eraseSession rest sid

/-- Grace period before a finalized session is deleted:
`5 * 60 * 1000` ms (the `setTimeout` in `handleCallEnd`). -/
def gracePeriodMs : Nat := 5 * 60 * 1000

/-- Hard maximum session age used by the periodic sweep:
`2 * 60 * 60 * 1000` ms. -/
def maxSessionAgeMs : Nat := 2 * 60 * 60 * 1000

/-- Interval of the periodic sweep: `30 * 60 * 1000` ms. -/
def sweepIntervalMs : Nat := 30 * 60 * 1000

/-- One pass of the cleanup `setInterval`: delete every session with
`now - createdAt > maxSessionAgeMs`, regardless of any other field. -/
def sweepOnce (now : Nat) : SessionMap → SessionMap
  | [] => []
  | (k, s) :: rest =>
    if now - s.createdAt > maxSessionAgeMs then sweepOnce now rest
    else (k, s) :: sweepOnce now rest

/-- Environment configuration read by `handleCallEnd`
(`SUPABASE_URL`, `SUPABASE_ANON_KEY`). -/
structure Env where
  supabaseUrl : Option String
  supabaseAnonKey : Option String

/-- JavaScript `Math.round(ms / 1000)` for a non-negative integer `ms`:
round half away from zero, which for non-negative input is
`(ms + 500) / 1000` in integer arithmetic. -/
def jsRound1000 (ms : Nat) : Nat := (ms + 500) / 1000

/-- Speaker label used when rendering the transcript:
`t.role === "user" ? "לקוח" : "סוכן"`. -/
def speakerLabel (r : Role) : String :=
  if r = Role.user then "לקוח" else "סוכן"

/-- One rendered transcript line: label, colon-space, text. -/
def renderLine (t : TranscriptEntry) : String :=
  speakerLabel t.role ++ ": " ++ t.text

/-- The `transcriptStr` computation of `handleCallEnd`: map entries to
labelled lines and join with newlines, in list (arrival) order. -/
def renderTranscript (ts : List TranscriptEntry) : String :=
  String.intercalate "\n" (ts.map renderLine)

/-- Body of the results report POSTed to the collector by
`handleCallEnd`. -/
structure Report where
  rtype : String
  callId : String
  callSid : Option String
  transcript : String
  duration : Nat
  endedReason : String
deriving DecidableEq

/-- Abstract outcome of the `fetch` call in `handleCallEnd`. -/
inductive FetchOutcome
  | ok
  | httpError (status : Nat)
  | networkError
deriving DecidableEq

/-- Log events emitted by `handleCallEnd` (console output). -/
inductive LogEvent
  | callEnded (duration : Nat)
  | resultsPosted (callId : String)
  | postFailed (status : Nat)
  | postError
deriving DecidableEq

/-- Result of one `handleCallEnd` invocation: the updated session map, the
report body sent to the collector (if any; `Option` reflects that at most
one attempt is made, with no retry), the log events, and the scheduled
deletion (`setTimeout(() => sessions.delete(sessionId), gracePeriodMs)`). -/
structure EndResult where
  sessions : SessionMap
  report : Option Report
  logs : List LogEvent
  scheduledDelete : Option (String × Nat)
deriving DecidableEq

/-- The `handleCallEnd(sessionId, callSid)` function.  `sessionId` is the
possibly-null variable the caller passes; `now` is `Date.now()`;
`outcome` is the result of the `fetch` (it influences only logging). -/
def handleCallEnd (env : Env) (now : Nat) (m : SessionMap)
    (sessionId : Option String) (callSid : Option String)
    (outcome : FetchOutcome) : EndResult :=
  match sessionId with
  | none => ⟨m, none, [], none⟩
  | some sid =>
    match find m sid with
    | none => ⟨m, none, [], none⟩
    | some s =>
      if s.ended then ⟨m, none, [], none⟩
      else
        let m' := markEnded m sid
        let duration := jsRound1000 (now - s.createdAt)
        let transcriptStr := renderTranscript s.transcript
        let attempt := jsTruthy env.supabaseUrl && jsTruthy env.supabaseAnonKey
          && jsTruthy s.callId
        let report : Option Report :=
          if attempt then
            some ⟨"openai-realtime-end", s.callId.getD "", callSid,
              transcriptStr, duration, "call_ended"⟩
          else none
        let fetchLogs : List LogEvent :=
          if attempt then
            match outcome with
            | .ok => [.resultsPosted (s.callId.getD "")]
            | .httpError status => [.postFailed status]
            | .networkError => [.postError]
          else []
        ⟨m', report, .callEnded duration :: fetchLogs,
          some (sid, now + gracePeriodMs)⟩

/-- One invocation of `handleCallEnd` in a sequence: its time, the
`sessionId` and `callSid` arguments, and the fetch outcome. -/
structure EndCall where
  now : Nat
  sessionId : Option String
  callSid : Option String
  outcome : FetchOutcome
deriving DecidableEq

/-- Run a sequence of `handleCallEnd` invocations against a session map,
collecting every report body that is sent. -/
def runEnds (env : Env) (m : SessionMap) : List EndCall → SessionMap × List Report
  | [] => (m, [])
  | c :: rest =>
    let r := handleCallEnd env c.now m c.sessionId c.callSid c.outcome
    let p := runEnds env r.sessions rest
    (p.1, r.report.toList ++ p.2)

/-- Ready state of the outbound OpenAI WebSocket (`openaiWs.readyState`);
`connecting` is the state right after `new WebSocket(...)`, before the
`open` event fires. -/
inductive WsState
  | connecting
  | opened
  | closed
deriving DecidableEq

/-- Per-connection mutable state of the `wss.on("connection")` closure:
the `sessionId`, `session` (modelled by `hasSession`, with `sessionId`
pointing at the resolved key whenever it is `true`), `streamSid`,
`callSid`, `openaiWs` (`none` = the variable is still `null`) and
`openaiReady` variables. -/
structure Conn where
  sessionId : Option String
  hasSession : Bool
  streamSid : Option String
  callSid : Option String
  openaiWs : Option WsState
  openaiReady : Bool
deriving DecidableEq

/-- Initial connection state: `sessionId` from the URL query parameter and
`session = sessionId ? sessions.get(sessionId) : null`; everything else
null/false. -/
def initConn (urlSessionId : Option String) (m : SessionMap) : Conn :=
  { sessionId := urlSessionId
    hasSession :=
      if jsTruthy urlSessionId then (find m (urlSessionId.getD "")).isSome
      else false
    streamSid := none
    callSid := none
    openaiWs := none
    openaiReady := false }

/-- Inbound Twilio protocol events (`data.event` in the message handler).
`start` carries `data.start.streamSid`, `data.start.callSid` and
`data.start.customParameters?.sessionId`, any of which may be absent. -/
inductive TwilioEvent
  | connected
  | start (streamSid callSid customSessionId : Option String)
  | media (payload : String)
  | stop
deriving DecidableEq

/-- Inbound OpenAI realtime events dispatched by `handleOpenAIEvent`
(`event.type`); payload strings may be absent. -/
inductive OpenAIEvent
  | sessionCreated
  | audioDelta (delta : Option String)
  | audioTranscriptDone (transcript : Option String)
  | inputTranscriptionDone (transcript : Option String)
  | speechStarted
  | errorEvent
deriving DecidableEq

/-- Messages sent on the OpenAI leg. -/
inductive OpenAIOut
  | sessionUpdate (instructions : String) (voice : String)
  | responseCreate
  | audioAppend (payload : String)
deriving DecidableEq

/-- Messages sent back on the Twilio leg.  `clearOut` carries the current
`streamSid` variable, which may still be null. -/
inductive TwilioOut
  | mediaOut (streamSid : String) (payload : String)
  | clearOut (streamSid : Option String)
deriving DecidableEq

/-- Observable actions of one connection-handler step. -/
inductive Action
  | toOpenAI (msg : OpenAIOut)
  | toTwilio (msg : TwilioOut)
  | closeTwilio
  | closeOpenAI
  | finalizeCall (sessionId : Option String) (callSid : Option String)
deriving DecidableEq

/-- Asynchronous events delivered to one connection handler: Twilio
messages, the OpenAI socket `open`/`close` events, and OpenAI messages
(with `Date.now()` for transcript timestamps). -/
inductive ConnEvent
  | twilioMsg (e : TwilioEvent)
  | openaiOpen
  | openaiMsg (e : OpenAIEvent) (now : Nat)
  | openaiClosed
  | twilioClose
deriving DecidableEq

/-- Push a transcript entry into the session the connection resolved
(`session.transcript.push(...)`). -/
def pushTranscript (m : SessionMap) (sessionId : Option String)
    (e : TranscriptEntry) : SessionMap :=
  match sessionId with
  | none => m
  | some sid => updateSession m sid (fun s => { s with transcript := s.transcript ++ [e] })

/-- The session prompt read when configuring the OpenAI leg
(`instructions: session.prompt`); the session is always resolved when
this runs, `""` is a dummy for the unreachable branches. -/
def promptOf (c : Conn) (m : SessionMap) : String :=
  match c.sessionId with
  | none => ""
  | some sid =>
    match find m sid with
    | none => ""
    | some s => s.prompt

/-- Session resolution performed inside the `start` case:
`if (!session && data.start.customParameters?.sessionId) { sessionId = cp;
session = sessions.get(cp); }` — the custom parameter is consulted only
when the connection-time (URL) lookup did not already resolve a session.
Returns the new `(sessionId, session != null)` pair. -/
def resolveStart (c : Conn) (m : SessionMap)
    (customSessionId : Option String) : Option String × Bool :=
  if ¬ c.hasSession ∧ jsTruthy customSessionId then
    (customSessionId, (find m (customSessionId.getD "")).isSome)
  else (c.sessionId, c.hasSession)

/-- The `twilioWs.on("message")` switch. -/
def handleTwilioEvent (c : Conn) (m : SessionMap) :
    TwilioEvent → Conn × SessionMap × List Action
  | .connected => (c, m, [])
  | .start streamSid callSid customSessionId =>
    let c1 := { c with streamSid := streamSid, callSid := callSid }
    let r := resolveStart c1 m customSessionId
    let c2 := { c1 with sessionId := r.1, hasSession := r.2 }
    if c2.hasSession then
      ({ c2 with openaiWs := some .connecting }, m, [])
    else
      (c2, m, [.closeTwilio])
  | .media payload =>
    if c.openaiReady = true ∧ c.openaiWs = some .opened then
      (c, m, [.toOpenAI (.audioAppend payload)])
    else (c, m, [])
  | .stop => (c, m, [.finalizeCall c.sessionId c.callSid])

/-- The `handleOpenAIEvent` switch. -/
def handleOpenAIEvent (c : Conn) (m : SessionMap) (now : Nat) :
    OpenAIEvent → Conn × SessionMap × List Action
  | .sessionCreated => (c, m, [.toOpenAI .responseCreate])
  | .audioDelta delta =>
    if jsTruthy c.streamSid = true ∧ jsTruthy delta = true then
      (c, m, [.toTwilio (.mediaOut (c.streamSid.getD "") (delta.getD ""))])
    else (c, m, [])
  | .audioTranscriptDone transcript =>
    if jsTruthy transcript then
      (c, pushTranscript m c.sessionId ⟨.agent, transcript.getD "", now⟩, [])
    else (c, m, [])
  | .inputTranscriptionDone transcript =>
    if jsTruthy transcript then
      (c, pushTranscript m c.sessionId ⟨.user, transcript.getD "", now⟩, [])
    else (c, m, [])
  | .speechStarted => (c, m, [.toTwilio (.clearOut c.streamSid)])
  | .errorEvent => (c, m, [])

/-- One asynchronous step of the connection handler.  `openaiOpen` is the
`openaiWs.on("open")` callback (configure the session, then set
`openaiReady = true`); `openaiClosed` the `on("close")` callback;
`openaiMsg` events can only be delivered once `openaiWs` exists;
`twilioClose` closes the OpenAI leg if open and invokes `handleCallEnd`
(the `finalizeCall` action). -/
def step (c : Conn) (m : SessionMap) : ConnEvent → Conn × SessionMap × List Action
  | .twilioMsg e => handleTwilioEvent c m e
  | .openaiOpen =>
    match c.openaiWs with
    | some .connecting =>
      ({ c with openaiWs := some .opened, openaiReady := true }, m,
        [.toOpenAI (.sessionUpdate (promptOf c m) "coral")])
    | _ => (c, m, [])
  | .openaiMsg e now =>
    if c.openaiWs.isSome then handleOpenAIEvent c m now e else (c, m, [])
  | .openaiClosed =>
    match c.openaiWs with
    | some _ => ({ c with openaiWs := some .closed, openaiReady := false }, m, [])
    | none => (c, m, [])
  | .twilioClose =>
    (c, m,
      (if c.openaiWs = some .opened then [Action.closeOpenAI] else [])
        ++ [.finalizeCall c.sessionId c.callSid])

/-- Run a sequence of connection events, concatenating the emitted actions
in order. -/
def run (c : Conn) (m : SessionMap) : List ConnEvent → Conn × SessionMap × List Action
  | [] => (c, m, [])
  | e :: rest =>
    let r1 := step c m e
    let r2 := run r1.1 r1.2.1 rest
    (r2.1, r2.2.1, r1.2.2 ++ r2.2.2)

/-- Actions executed later by the event loop against the session map: a
fired deletion timer from `handleCallEnd`, or one pass of the periodic
sweep. -/
inductive CleanupAction
  | execDelete (sid : String)
  | sweepTick (now : Nat)
deriving DecidableEq

/-- Execute one cleanup action on the session map. -/
def applyCleanup (m : SessionMap) : CleanupAction → SessionMap
  | .execDelete sid => eraseSession m sid
  | .sweepTick now => sweepOnce now m

/-- Execute a sequence of cleanup actions. -/
def runCleanup (m : SessionMap) : List CleanupAction → SessionMap
  | [] => m
  | a :: rest => runCleanup (applyCleanup m a) rest

/-! Concrete fixtures used by witnesses. -/

/-- Sample session with a call identifier and two transcript entries. -/
def sesA : Session :=
  { prompt := "Be concise", callId := some "c-1", contactName := "Dana",
    voiceId := "alloy", language := "he",
    transcript := [⟨.agent, "hello", 5⟩, ⟨.user, "hi", 9⟩], createdAt := 1000 }

/-- Sample session with no transcript. -/
def sesB : Session :=
  { prompt := "B", callId := some "c-2", contactName := "", voiceId := "alloy",
    language := "he", transcript := [], createdAt := 2000 }

/-- Sample session map holding `sesA` and `sesB`. -/
def mapAB : SessionMap := [("sidA", sesA), ("sidB", sesB)]

/-- Sample fully configured environment. -/
def envFull : Env := { supabaseUrl := some "u", supabaseAnonKey := some "k" }

/-! Helper lemmas. -/

theorem handleCallEnd_noSessionId (env : Env) (now : Nat) (m : SessionMap)
    (csid : Option String) (o : FetchOutcome) :
    handleCallEnd env now m none csid o = ⟨m, none, [], none⟩ := rfl

theorem handleCallEnd_missing (env : Env) (now : Nat) (m : SessionMap)
    (sid : String) (csid : Option String) (o : FetchOutcome)
    (h : find m sid = none) :
    handleCallEnd env now m (some sid) csid o = ⟨m, none, [], none⟩ := by
  simp [handleCallEnd, h]

theorem handleCallEnd_already_ended (env : Env) (now : Nat) (m : SessionMap)
    (sid : String) (csid : Option String) (o : FetchOutcome) (s : Session)
    (h : find m sid = some s) (he : s.ended = true) :
    handleCallEnd env now m (some sid) csid o = ⟨m, none, [], none⟩ := by
  simp [handleCallEnd, h, he]

theorem find_markEnded (m : SessionMap) (sid : String) (s : Session)
    (h : find m sid = some s) :
    find (markEnded m sid) sid = some { s with ended := true } := by
  induction m with
  | nil => simp [find] at h
  | cons p rest ih =>
    by_cases hk : p.1 = sid
    · simp [find, hk] at h
      simp [markEnded, updateSession, find, hk, h]
    · simp [find, hk] at h
      simpa [markEnded, updateSession, find, hk] using ih h

theorem markEnded_of_find_none (m : SessionMap) (sid : String)
    (h : find m sid = none) : markEnded m sid = m := by
  induction m with
  | nil => rfl
  | cons p rest ih =>
    by_cases hk : p.1 = sid
    · simp [find, hk] at h
    · simp [find, hk] at h
      simp [markEnded, updateSession, hk] at ih ⊢
      exact ih h

theorem runEnds_noop (env : Env) (m : SessionMap) (sid : String)
    (calls : List EndCall) (hall : ∀ c ∈ calls, c.sessionId = some sid)
    (h : find m sid = none ∨ ∃ s, find m sid = some s ∧ s.ended = true) :
    runEnds env m calls = (m, []) := by
  induction calls with
  | nil => rfl
  | cons c rest ih =>
    have hc : c.sessionId = some sid := hall c (List.mem_cons_self ..)
    have hstep : handleCallEnd env c.now m c.sessionId c.callSid c.outcome
        = ⟨m, none, [], none⟩ := by
      rcases h with hnone | ⟨s, hs, hse⟩
      · rw [hc]; exact handleCallEnd_missing env c.now m sid c.callSid c.outcome hnone
      · rw [hc]; exact handleCallEnd_already_ended env c.now m sid c.callSid c.outcome s hs hse
    have ihr := ih (fun d hd => hall d (List.mem_cons_of_mem c hd))
    simp [runEnds, hstep, ihr]

/-- C1: over any sequence of finalize (`handleCallEnd`) invocations on one
session — whether triggered by a `stop` event, by connection close, or by
both — at most one results report is issued; the only possible state
change of the registry is the single false→true `ended` transition
(`markEnded`); and on a missing or already-ended session the whole
sequence is a no-op. -/
theorem finalize_at_most_once (env : Env) (m : SessionMap) (sid : String)
    (calls : List EndCall) (hall : ∀ c ∈ calls, c.sessionId = some sid) :
    (runEnds env m calls).2.length ≤ 1
    ∧ ((runEnds env m calls).1 = m ∨ (runEnds env m calls).1 = markEnded m sid)
    ∧ (find m sid = none → runEnds env m calls = (m, []))
    ∧ (∀ s, find m sid = some s → s.ended = true → runEnds env m calls = (m, [])) := by
  refine ⟨?_, ?_, ?_, ?_⟩
  case refine_3 =>
    intro h
    exact runEnds_noop env m sid calls hall (Or.inl h)
  case refine_4 =>
    intro s hs hse
    exact runEnds_noop env m sid calls hall (Or.inr ⟨s, hs, hse⟩)
  all_goals
    induction calls with
    | nil => simp [runEnds]
    | cons c rest ih =>
      have hc : c.sessionId = some sid := hall c (List.mem_cons_self ..)
      have hrest : ∀ d ∈ rest, d.sessionId = some sid :=
        fun d hd => hall d (List.mem_cons_of_mem c hd)
      rcases hfind : find m sid with _ | s
      · have hstep := handleCallEnd_missing env c.now m sid c.callSid c.outcome hfind
        simpa [runEnds, hc, hstep] using ih hrest
      · rcases hse : s.ended with _ | _
        · -- first effective invocation: `ended` is set, everything after is a no-op
          have hrest_noop : runEnds env (markEnded m sid) rest = (markEnded m sid, []) :=
            runEnds_noop env (markEnded m sid) sid rest hrest
              (Or.inr ⟨{ s with ended := true }, find_markEnded m sid s hfind, rfl⟩)
          have hsess : (handleCallEnd env c.now m c.sessionId c.callSid c.outcome).sessions
              = markEnded m sid := by
            rw [hc]; simp [handleCallEnd, hfind, hse]
          have hrep : (handleCallEnd env c.now m c.sessionId c.callSid c.outcome).report.toList.length ≤ 1 := by
            rcases (handleCallEnd env c.now m c.sessionId c.callSid c.outcome).report with _ | r <;> simp
          simp only [runEnds, hsess, hrest_noop]
          first
          | simpa using hrep
          | simp
        · have hstep := handleCallEnd_already_ended env c.now m sid c.callSid c.outcome s hfind hse
          simpa [runEnds, hc, hstep] using ih hrest

/-- Witness for `finalize_at_most_once`: a concrete session finalized twice
(stop event then connection close). -/
theorem finalize_at_most_once_witness :
    (∀ c ∈ [EndCall.mk 4600 (some "sidA") (some "CA1") .ok,
            EndCall.mk 5000 (some "sidA") none .ok], c.sessionId = some "sidA")
    ∧ ((runEnds envFull mapAB [EndCall.mk 4600 (some "sidA") (some "CA1") .ok,
          EndCall.mk 5000 (some "sidA") none .ok]).2.length ≤ 1
       ∧ ((runEnds envFull mapAB [EndCall.mk 4600 (some "sidA") (some "CA1") .ok,
            EndCall.mk 5000 (some "sidA") none .ok]).1 = mapAB
          ∨ (runEnds envFull mapAB [EndCall.mk 4600 (some "sidA") (some "CA1") .ok,
              EndCall.mk 5000 (some "sidA") none .ok]).1 = markEnded mapAB "sidA")
       ∧ (find mapAB "sidA" = none →
            runEnds envFull mapAB [EndCall.mk 4600 (some "sidA") (some "CA1") .ok,
              EndCall.mk 5000 (some "sidA") none .ok] = (mapAB, []))
       ∧ (∀ s, find mapAB "sidA" = some s → s.ended = true →
            runEnds envFull mapAB [EndCall.mk 4600 (some "sidA") (some "CA1") .ok,
              EndCall.mk 5000 (some "sidA") none .ok] = (mapAB, []))) :=
  ⟨by decide, finalize_at_most_once envFull mapAB "sidA" _ (by decide)⟩

/-- C7: on the first finalize of a session, the results report is issued
iff the collector endpoint is configured (both environment values truthy)
and the session carries a call identifier; an issued report carries
exactly the call identifier, the call-leg identifier, the rendered
transcript, the rounded duration and the "call_ended" reason; the fetch
outcome influences nothing but the log entries (so a failure cannot block
the scheduled deletion), failures produce exactly one log entry (no
retry), and the deletion is scheduled unconditionally. -/
theorem report_iff_configured (env : Env) (now : Nat) (m : SessionMap)
    (sid : String) (csid : Option String) (o : FetchOutcome) (s : Session)
    (hfind : find m sid = some s) (hend : s.ended = false) :
    ((handleCallEnd env now m (some sid) csid o).report.isSome = true
        ↔ (jsTruthy env.supabaseUrl = true ∧ jsTruthy env.supabaseAnonKey = true
           ∧ jsTruthy s.callId = true))
    ∧ (∀ rep, (handleCallEnd env now m (some sid) csid o).report = some rep →
        rep = ⟨"openai-realtime-end", s.callId.getD "", csid,
          renderTranscript s.transcript, jsRound1000 (now - s.createdAt),
          "call_ended"⟩)
    ∧ (handleCallEnd env now m (some sid) csid o).scheduledDelete
        = some (sid, now + gracePeriodMs)
    ∧ (∀ o₂,
        (handleCallEnd env now m (some sid) csid o₂).sessions
            = (handleCallEnd env now m (some sid) csid o).sessions
        ∧ (handleCallEnd env now m (some sid) csid o₂).report
            = (handleCallEnd env now m (some sid) csid o).report
        ∧ (handleCallEnd env now m (some sid) csid o₂).scheduledDelete
            = (handleCallEnd env now m (some sid) csid o).scheduledDelete)
    ∧ (∀ status, o = .httpError status →
        (handleCallEnd env now m (some sid) csid o).report.isSome = true →
        (handleCallEnd env now m (some sid) csid o).logs
          = [.callEnded (jsRound1000 (now - s.createdAt)), .postFailed status])
    ∧ (o = .networkError →
        (handleCallEnd env now m (some sid) csid o).report.isSome = true →
        (handleCallEnd env now m (some sid) csid o).logs
          = [.callEnded (jsRound1000 (now - s.createdAt)), .postError]) := by
  refine ⟨?_, ?_, ?_, ?_, ?_, ?_⟩
  · simp [handleCallEnd, hfind, hend]
    by_cases h1 : jsTruthy env.supabaseUrl = true <;>
      by_cases h2 : jsTruthy env.supabaseAnonKey = true <;>
        by_cases h3 : jsTruthy s.callId = true <;>
          simp [h1, h2, h3]
  · intro rep hrep
    simp only [handleCallEnd, hfind, hend] at hrep
    by_cases hatt : (jsTruthy env.supabaseUrl && jsTruthy env.supabaseAnonKey
        && jsTruthy s.callId) = true
    · simp [hatt] at hrep
      exact hrep.symm
    · simp [hatt] at hrep
  · simp [handleCallEnd, hfind, hend]
  · intro o₂
    refine ⟨?_, ?_, ?_⟩ <;> simp [handleCallEnd, hfind, hend]
  · intro status ho hrep
    subst ho
    simp only [handleCallEnd, hfind, hend] at hrep ⊢
    by_cases hatt : (jsTruthy env.supabaseUrl && jsTruthy env.supabaseAnonKey
        && jsTruthy s.callId) = true
    · simp [hatt]
    · simp [hatt] at hrep
  · intro ho hrep
    subst ho
    simp only [handleCallEnd, hfind, hend] at hrep ⊢
    by_cases hatt : (jsTruthy env.supabaseUrl && jsTruthy env.supabaseAnonKey
        && jsTruthy s.callId) = true
    · simp [hatt]
    · simp [hatt] at hrep

/-- Witness for `report_iff_configured`: the concrete session `sesA`
finalized at a concrete time with a failing HTTP response. -/
theorem report_iff_configured_witness :
    (find mapAB "sidA" = some sesA ∧ sesA.ended = false)
    ∧ (((handleCallEnd envFull 4600 mapAB (some "sidA") (some "CA1")
          (.httpError 500)).report.isSome = true
        ↔ (jsTruthy envFull.supabaseUrl = true
           ∧ jsTruthy envFull.supabaseAnonKey = true
           ∧ jsTruthy sesA.callId = true))
       ∧ (∀ rep, (handleCallEnd envFull 4600 mapAB (some "sidA") (some "CA1")
            (.httpError 500)).report = some rep →
          rep = ⟨"openai-realtime-end", sesA.callId.getD "", some "CA1",
            renderTranscript sesA.transcript, jsRound1000 (4600 - sesA.createdAt),
            "call_ended"⟩)
       ∧ (handleCallEnd envFull 4600 mapAB (some "sidA") (some "CA1")
            (.httpError 500)).scheduledDelete = some ("sidA", 4600 + gracePeriodMs)
       ∧ (∀ o₂,
           (handleCallEnd envFull 4600 mapAB (some "sidA") (some "CA1") o₂).sessions
               = (handleCallEnd envFull 4600 mapAB (some "sidA") (some "CA1")
                   (.httpError 500)).sessions
           ∧ (handleCallEnd envFull 4600 mapAB (some "sidA") (some "CA1") o₂).report
               = (handleCallEnd envFull 4600 mapAB (some "sidA") (some "CA1")
                   (.httpError 500)).report
           ∧ (handleCallEnd envFull 4600 mapAB (some "sidA") (some "CA1") o₂).scheduledDelete
               = (handleCallEnd envFull 4600 mapAB (some "sidA") (some "CA1")
                   (.httpError 500)).scheduledDelete)
       ∧ (∀ status, FetchOutcome.httpError 500 = FetchOutcome.httpError status →
           (handleCallEnd envFull 4600 mapAB (some "sidA") (some "CA1")
             (.httpError 500)).report.isSome = true →
           (handleCallEnd envFull 4600 mapAB (some "sidA") (some "CA1")
             (.httpError 500)).logs
             = [.callEnded (jsRound1000 (4600 - sesA.createdAt)), .postFailed status])
       ∧ (FetchOutcome.httpError 500 = FetchOutcome.networkError →
           (handleCallEnd envFull 4600 mapAB (some "sidA") (some "CA1")
             (.httpError 500)).report.isSome = true →
           (handleCallEnd envFull 4600 mapAB (some "sidA") (some "CA1")
             (.httpError 500)).logs
             = [.callEnded (jsRound1000 (4600 - sesA.createdAt)), .postError])) :=
  ⟨by decide,
   report_iff_configured envFull 4600 mapAB "sidA" (some "CA1")
     (.httpError 500) sesA (by decide) (by decide)⟩

/-- C9: on the first finalize of a session, the reported duration is the
elapsed wall-clock time in milliseconds rounded (half up) to whole
seconds — characterised exactly by the two inequalities — and the
reported transcript is the entry list mapped to speaker-labelled lines
and joined by newlines in arrival order. -/
theorem duration_and_transcript (env : Env) (now : Nat) (m : SessionMap)
    (sid : String) (csid : Option String) (o : FetchOutcome) (s : Session)
    (hfind : find m sid = some s) (hend : s.ended = false)
    (hclock : s.createdAt ≤ now) :
    ∀ rep, (handleCallEnd env now m (some sid) csid o).report = some rep →
      rep.duration = (now - s.createdAt + 500) / 1000
      ∧ 1000 * rep.duration ≤ (now - s.createdAt) + 500
      ∧ (now - s.createdAt) + 500 < 1000 * (rep.duration + 1)
      ∧ rep.transcript = String.intercalate "\n"
          (s.transcript.map (fun t =>
            (if t.role = Role.user then "לקוח" else "סוכן") ++ ": " ++ t.text)) := by
  intro rep hrep
  simp only [handleCallEnd, hfind, hend] at hrep
  by_cases hatt : (jsTruthy env.supabaseUrl && jsTruthy env.supabaseAnonKey
      && jsTruthy s.callId) = true
  · simp [hatt] at hrep
    have hdur : rep.duration = (now - s.createdAt + 500) / 1000 := by
      rw [← hrep]
      rfl
    refine ⟨hdur, ?_, ?_, ?_⟩
    · rw [hdur]; omega
    · rw [hdur]; omega
    · rw [← hrep]
      have hline : renderLine = fun t : TranscriptEntry =>
          (if t.role = Role.user then "לקוח" else "סוכן") ++ ": " ++ t.text :=
        funext fun t => rfl
      simp [renderTranscript, hline]
  · simp [hatt] at hrep

/-- Witness for `duration_and_transcript`: `sesA` finalized at time 4600,
3600 ms after creation, giving a duration of 4 seconds. -/
theorem duration_and_transcript_witness :
    (find mapAB "sidA" = some sesA ∧ sesA.ended = false ∧ sesA.createdAt ≤ 4600)
    ∧ (∀ rep, (handleCallEnd envFull 4600 mapAB (some "sidA") (some "CA1")
          .ok).report = some rep →
        rep.duration = (4600 - sesA.createdAt + 500) / 1000
        ∧ 1000 * rep.duration ≤ (4600 - sesA.createdAt) + 500
        ∧ (4600 - sesA.createdAt) + 500 < 1000 * (rep.duration + 1)
        ∧ rep.transcript = String.intercalate "\n"
            (sesA.transcript.map (fun t =>
              (if t.role = Role.user then "לקוח" else "סוכן") ++ ": " ++ t.text))) :=
  ⟨by decide,
   duration_and_transcript envFull 4600 mapAB "sidA" (some "CA1") .ok sesA
     (by decide) (by decide) (by decide)⟩

/-- Helper: whether a connection event is the delivery of the
session-created acknowledgment. -/
def isSessionCreatedMsg : ConnEvent → Bool
  | .openaiMsg .sessionCreated _ => true
  | _ => false

/-- Trace for the C2 counterexample: a successful start event followed by
the OpenAI socket open event, with no session-created acknowledgment. -/
def traceStartOpen : List ConnEvent :=
  [.twilioMsg (.start (some "MZ1") (some "CA1") none), .openaiOpen]

/-- C2 counterexample: after a start event and the socket `open` callback
alone, the readiness flag is already true although no session-created
acknowledgment was ever received — readiness is set on connection
establishment, not on the acknowledgment. -/
theorem ready_before_session_created :
    ((run (initConn (some "sidA") mapAB) mapAB traceStartOpen).1.openaiReady = true)
    ∧ traceStartOpen.all (fun e => !(isSessionCreatedMsg e)) = true := by decide

/-- C2 (amended): the readiness flag is set true by the socket `open`
callback, immediately after the session-configuration message is sent —
not by the session-created acknowledgment; no other event turns
readiness on; and upon the session-created acknowledgment exactly one
response-request message is sent so the assistant speaks first. -/
theorem ready_on_open_response_on_created (c : Conn) (m : SessionMap) :
    (c.openaiWs = some .connecting →
      step c m .openaiOpen
        = ({ c with openaiWs := some .opened, openaiReady := true }, m,
           [.toOpenAI (.sessionUpdate (promptOf c m) "coral")]))
    ∧ (∀ e, c.openaiReady = false → (step c m e).1.openaiReady = true →
        e = .openaiOpen)
    ∧ (∀ now, c.openaiWs.isSome = true →
        step c m (.openaiMsg .sessionCreated now)
          = (c, m, [.toOpenAI .responseCreate])) := by
  refine ⟨?_, ?_, ?_⟩
  · intro h
    simp [step, h]
  · intro e h1 h2
    cases e with
    | twilioMsg te =>
      cases te with
      | connected => simp [step, handleTwilioEvent, h1] at h2
      | start ssid csid custom =>
        simp only [step, handleTwilioEvent] at h2
        split at h2 <;> simp_all
      | media p =>
        simp only [step, handleTwilioEvent] at h2
        split at h2 <;> simp_all
      | stop => simp [step, handleTwilioEvent, h1] at h2
    | openaiOpen => rfl
    | openaiMsg oe now =>
      cases oe <;>
        · simp only [step, handleOpenAIEvent] at h2
          split at h2 <;> simp_all <;> split at h2 <;> simp_all
    | openaiClosed =>
      simp only [step] at h2
      split at h2 <;> simp_all
    | twilioClose => simp [step, h1] at h2
  · intro now h
    simp [step, h, handleOpenAIEvent]

/-- Connection state right after `connectOpenAI` created the socket. -/
def connConnecting : Conn :=
  { sessionId := some "sidA", hasSession := true, streamSid := some "MZ1",
    callSid := some "CA1", openaiWs := some .connecting, openaiReady := false }

/-- Connection state with the OpenAI socket open. -/
def connOpened : Conn :=
  { connConnecting with openaiWs := some .opened, openaiReady := true }

/-- Witness for `ready_on_open_response_on_created` at concrete states. -/
theorem ready_on_open_response_on_created_witness :
    step connConnecting mapAB .openaiOpen
      = ({ connConnecting with openaiWs := some .opened, openaiReady := true },
         mapAB, [.toOpenAI (.sessionUpdate (promptOf connConnecting mapAB) "coral")])
    ∧ ConnEvent.openaiOpen = ConnEvent.openaiOpen
    ∧ step connOpened mapAB (.openaiMsg .sessionCreated 7)
      = (connOpened, mapAB, [.toOpenAI .responseCreate]) :=
  ⟨(ready_on_open_response_on_created connConnecting mapAB).1 (by decide),
   (ready_on_open_response_on_created connConnecting mapAB).2.1
     ConnEvent.openaiOpen (by decide) (by decide),
   (ready_on_open_response_on_created connOpened mapAB).2.2 7 (by decide)⟩

/-- C3: the start-event session resolution evaluated where the URL
parameter already resolved session "sidA" while the start payload carries
the custom parameter "sidB" (also registered): the code keeps the
URL-resolved session and never consults the custom parameter, although
its own comments call the custom parameter the primary method. -/
theorem url_session_wins_over_custom :
    resolveStart
      { initConn (some "sidA") mapAB with
          streamSid := some "MZ1", callSid := some "CA1" }
      mapAB (some "sidB")
      = (some "sidA", true) := by decide

/-- C5: a caller media frame is forwarded to the AI leg iff the readiness
flag is set and the AI socket is open; otherwise the step changes neither
the connection state nor the registry and emits nothing (the frame is
dropped, never buffered), and the rest of the run is exactly the run
without that frame (the frame is never forwarded later). -/
theorem media_forward_iff_ready (c : Conn) (m : SessionMap) (p : String) :
    (c.openaiReady = true ∧ c.openaiWs = some .opened →
      step c m (.twilioMsg (.media p)) = (c, m, [.toOpenAI (.audioAppend p)]))
    ∧ (¬ (c.openaiReady = true ∧ c.openaiWs = some .opened) →
      step c m (.twilioMsg (.media p)) = (c, m, [])
      ∧ ∀ rest, run c m (.twilioMsg (.media p) :: rest) = run c m rest) := by
  constructor
  · intro h
    simp [step, handleTwilioEvent, h]
  · intro h
    have hstep : step c m (.twilioMsg (.media p)) = (c, m, []) := by
      simp [step, handleTwilioEvent, h]
    refine ⟨hstep, fun rest => ?_⟩
    simp [run, hstep]

/-- Witness for `media_forward_iff_ready`: the ready case forwards the
frame, the not-ready case drops it and leaves the run unchanged. -/
theorem media_forward_iff_ready_witness :
    ((connOpened.openaiReady = true ∧ connOpened.openaiWs = some .opened)
     ∧ step connOpened mapAB (.twilioMsg (.media "AAAA"))
        = (connOpened, mapAB, [.toOpenAI (.audioAppend "AAAA")]))
    ∧ ((¬ (connConnecting.openaiReady = true ∧ connConnecting.openaiWs = some .opened))
       ∧ (step connConnecting mapAB (.twilioMsg (.media "AAAA")) = (connConnecting, mapAB, [])
          ∧ ∀ rest, run connConnecting mapAB (.twilioMsg (.media "AAAA") :: rest)
              = run connConnecting mapAB rest)) :=
  ⟨⟨by decide,
    (media_forward_iff_ready connOpened mapAB "AAAA").1 (by decide)⟩,
   ⟨by decide,
    (media_forward_iff_ready connConnecting mapAB "AAAA").2 (by decide)⟩⟩

/-- C10: with the stream identifier still unset, a caller-speech-started
event still sends a clear command carrying the null stream identifier,
while an audio-output delta is suppressed entirely. -/
theorem clear_null_delta_suppressed (c : Conn) (m : SessionMap) (now : Nat)
    (h1 : c.streamSid = none) (h2 : c.openaiWs.isSome = true) :
    step c m (.openaiMsg .speechStarted now)
      = (c, m, [.toTwilio (.clearOut none)])
    ∧ ∀ d, step c m (.openaiMsg (.audioDelta d) now) = (c, m, []) := by
  constructor
  · simp [step, h2, handleOpenAIEvent, h1]
  · intro d
    simp [step, h2, handleOpenAIEvent, h1, jsTruthy]

/-- Connection state with the OpenAI socket open but no stream identifier
(a start event that carried none). -/
def connNoStream : Conn := { connOpened with streamSid := none }

/-- Witness for `clear_null_delta_suppressed` at a concrete state. -/
theorem clear_null_delta_suppressed_witness :
    (connNoStream.streamSid = none ∧ connNoStream.openaiWs.isSome = true)
    ∧ (step connNoStream mapAB (.openaiMsg .speechStarted 7)
        = (connNoStream, mapAB, [.toTwilio (.clearOut none)])
       ∧ ∀ d, step connNoStream mapAB (.openaiMsg (.audioDelta d) 7)
          = (connNoStream, mapAB, [])) :=
  ⟨by decide,
   clear_null_delta_suppressed connNoStream mapAB 7 (by decide) (by decide)⟩

/-- Helper: whether a connection event is a telephony start event. -/
def isStartEvent : ConnEvent → Bool
  | .twilioMsg (.start _ _ _) => true
  | _ => false

theorem step_openaiWs_none (c : Conn) (m : SessionMap) (e : ConnEvent)
    (hws : c.openaiWs = none) (hstart : isStartEvent e = false) :
    (step c m e).1.openaiWs = none ∧ (step c m e).2.1 = m := by
  cases e with
  | twilioMsg te =>
    cases te with
    | connected => simp [step, handleTwilioEvent, hws]
    | start ssid csid custom => simp [isStartEvent] at hstart
    | media p =>
      simp only [step, handleTwilioEvent]
      split <;> simp [hws]
    | stop => simp [step, handleTwilioEvent, hws]
  | openaiOpen => simp [step, hws]
  | openaiMsg oe now => simp [step, hws]
  | openaiClosed => simp [step, hws]
  | twilioClose => simp [step, hws]

theorem run_openaiWs_none (es : List ConnEvent) (c : Conn) (m : SessionMap)
    (hws : c.openaiWs = none)
    (hstart : es.all (fun e => !(isStartEvent e)) = true) :
    (run c m es).1.openaiWs = none := by
  induction es generalizing c m with
  | nil => simpa [run] using hws
  | cons e rest ih =>
    simp only [List.all_cons, Bool.and_eq_true, Bool.not_eq_eq_eq_not, Bool.not_true] at hstart
    have hs := step_openaiWs_none c m e hws (by simpa using hstart.1)
    simp only [run]
    exact ih (step c m e).1 (step c m e).2.1 hs.1 (by simpa using hstart.2)

/-- C4: a start event whose session resolution fails emits exactly the
close of the telephony connection, leaves the registry untouched and
leaves the AI-leg handle unchanged (in particular null); the AI-leg
handle is created only by a start event whose resolution succeeds; and a
connection that never processes a start event never acquires an AI
leg. -/
theorem fail_fast_no_ai_leg (c : Conn) (m : SessionMap) :
    (∀ ssid csid custom,
      (resolveStart { c with streamSid := ssid, callSid := csid } m custom).2 = false →
      (step c m (.twilioMsg (.start ssid csid custom))).2.2 = [.closeTwilio]
      ∧ (step c m (.twilioMsg (.start ssid csid custom))).1.openaiWs = c.openaiWs
      ∧ (step c m (.twilioMsg (.start ssid csid custom))).2.1 = m)
    ∧ (∀ e, (step c m e).1.openaiWs.isSome = true →
        c.openaiWs.isSome = true
        ∨ ∃ ssid csid custom, e = .twilioMsg (.start ssid csid custom)
            ∧ (resolveStart { c with streamSid := ssid, callSid := csid } m custom).2 = true)
    ∧ (∀ es, c.openaiWs = none → es.all (fun e => !(isStartEvent e)) = true →
        (run c m es).1.openaiWs = none) := by
  refine ⟨?_, ?_, ?_⟩
  · intro ssid csid custom hres
    simp [step, handleTwilioEvent, hres]
  · intro e hsome
    cases e with
    | twilioMsg te =>
      cases te with
      | connected => exact Or.inl (by simpa [step, handleTwilioEvent] using hsome)
      | start ssid csid custom =>
        by_cases hres :
            (resolveStart { c with streamSid := ssid, callSid := csid } m custom).2 = true
        · exact Or.inr ⟨ssid, csid, custom, rfl, hres⟩
        · simp only [step, handleTwilioEvent] at hsome
          rw [Bool.not_eq_true] at hres
          simp [hres] at hsome
          exact Or.inl hsome
      | media p =>
        simp only [step, handleTwilioEvent] at hsome
        left
        split at hsome <;> simpa using hsome
      | stop => exact Or.inl (by simpa [step, handleTwilioEvent] using hsome)
    | openaiOpen =>
      left
      simp only [step] at hsome
      split at hsome <;> simp_all
    | openaiMsg oe now =>
      left
      simp only [step] at hsome
      split at hsome
      · cases oe <;> first
          | simpa [handleOpenAIEvent] using hsome
          | · simp only [handleOpenAIEvent] at hsome
              split at hsome <;> simpa using hsome
      · simpa using hsome
    | openaiClosed =>
      left
      simp only [step] at hsome
      split at hsome <;> simp_all
    | twilioClose => exact Or.inl (by simpa [step] using hsome)
  · intro es hws hstart
    exact run_openaiWs_none es c m hws hstart

/-- Witness for `fail_fast_no_ai_leg`: a connection whose URL parameter
resolved nothing receives a start event with no custom parameter (failed
resolution), an open socket steps on `openaiOpen`, and a start-free trace
keeps the AI leg null. -/
theorem fail_fast_no_ai_leg_witness :
    (((resolveStart
        { initConn (some "nope") mapAB with
            streamSid := some "MZ1", callSid := some "CA1" }
        mapAB none).2 = false)
     ∧ ((step (initConn (some "nope") mapAB) mapAB
          (.twilioMsg (.start (some "MZ1") (some "CA1") none))).2.2 = [.closeTwilio]
        ∧ (step (initConn (some "nope") mapAB) mapAB
            (.twilioMsg (.start (some "MZ1") (some "CA1") none))).1.openaiWs
            = (initConn (some "nope") mapAB).openaiWs
        ∧ (step (initConn (some "nope") mapAB) mapAB
            (.twilioMsg (.start (some "MZ1") (some "CA1") none))).2.1 = mapAB))
    ∧ ((step connOpened mapAB .openaiOpen).1.openaiWs.isSome = true
       ∧ (connOpened.openaiWs.isSome = true
          ∨ ∃ ssid csid custom, ConnEvent.openaiOpen = .twilioMsg (.start ssid csid custom)
              ∧ (resolveStart { connOpened with streamSid := ssid, callSid := csid }
                  mapAB custom).2 = true))
    ∧ ((initConn (some "sidA") mapAB).openaiWs = none
       ∧ ([ConnEvent.twilioMsg (.media "AAAA"), ConnEvent.twilioMsg .stop].all
            (fun e => !(isStartEvent e)) = true)
       ∧ (run (initConn (some "sidA") mapAB) mapAB
            [ConnEvent.twilioMsg (.media "AAAA"), ConnEvent.twilioMsg .stop]).1.openaiWs
            = none) :=
  ⟨⟨by decide,
    (fail_fast_no_ai_leg (initConn (some "nope") mapAB) mapAB).1
      (some "MZ1") (some "CA1") none (by decide)⟩,
   ⟨by decide,
    (fail_fast_no_ai_leg connOpened mapAB).2.1 ConnEvent.openaiOpen (by decide)⟩,
   ⟨by decide, by decide,
    (fail_fast_no_ai_leg (initConn (some "sidA") mapAB) mapAB).2.2
      [ConnEvent.twilioMsg (.media "AAAA"), ConnEvent.twilioMsg .stop]
      (by decide) (by decide)⟩⟩

/-- Helper: whether an action is a clear command to the telephony leg. -/
def isClear : Action → Bool
  | .toTwilio (.clearOut _) => true
  | _ => false

theorem run_append (c : Conn) (m : SessionMap) (es₁ es₂ : List ConnEvent) :
    run c m (es₁ ++ es₂)
      = ((run (run c m es₁).1 (run c m es₁).2.1 es₂).1,
         (run (run c m es₁).1 (run c m es₁).2.1 es₂).2.1,
         (run c m es₁).2.2 ++ (run (run c m es₁).1 (run c m es₁).2.1 es₂).2.2) := by
  induction es₁ generalizing c m with
  | nil => simp [run]
  | cons e rest ih =>
    simp [run, ih]

/-- C6: a caller-speech-started event received on a live AI leg makes the
handler emit exactly one clear command, carrying the call's current
stream identifier, and nothing else; no other event ever emits a clear;
and in a full run the clear is placed before every action of the events
that follow it — in particular before any caller audio relayed later. -/
theorem one_clear_per_speech_started (c : Conn) (m : SessionMap) :
    (∀ now, c.openaiWs.isSome = true →
      step c m (.openaiMsg .speechStarted now)
        = (c, m, [.toTwilio (.clearOut c.streamSid)]))
    ∧ (∀ e, (∀ now, e ≠ .openaiMsg .speechStarted now) →
        (step c m e).2.2.filter isClear = [])
    ∧ (∀ es₁ es₂ now, (run c m es₁).1.openaiWs.isSome = true →
        run c m (es₁ ++ .openaiMsg .speechStarted now :: es₂)
          = ((run (run c m es₁).1 (run c m es₁).2.1 es₂).1,
             (run (run c m es₁).1 (run c m es₁).2.1 es₂).2.1,
             (run c m es₁).2.2
               ++ .toTwilio (.clearOut (run c m es₁).1.streamSid)
               :: (run (run c m es₁).1 (run c m es₁).2.1 es₂).2.2)) := by
  have hstep : ∀ (c : Conn) (m : SessionMap) (now : Nat), c.openaiWs.isSome = true →
      step c m (.openaiMsg .speechStarted now)
        = (c, m, [.toTwilio (.clearOut c.streamSid)]) := by
    intro c m now h
    simp [step, h, handleOpenAIEvent]
  refine ⟨fun now h => hstep c m now h, ?_, ?_⟩
  · intro e hne
    cases e with
    | twilioMsg te =>
      cases te with
      | connected => simp [step, handleTwilioEvent]
      | start ssid csid custom =>
        simp only [step, handleTwilioEvent]
        split <;> simp [isClear]
      | media p =>
        simp only [step, handleTwilioEvent]
        split <;> simp [isClear]
      | stop => simp [step, handleTwilioEvent, isClear]
    | openaiOpen =>
      simp only [step]
      split <;> simp [isClear]
    | openaiMsg oe now =>
      cases oe with
      | speechStarted => exact absurd rfl (hne now)
      | audioDelta d =>
        simp only [step, handleOpenAIEvent]
        split
        · split <;> simp [isClear]
        · simp
      | sessionCreated =>
        simp only [step, handleOpenAIEvent]
        split <;> simp [isClear]
      | audioTranscriptDone t =>
        simp only [step, handleOpenAIEvent]
        split
        · split <;> simp [isClear]
        · simp
      | inputTranscriptionDone t =>
        simp only [step, handleOpenAIEvent]
        split
        · split <;> simp [isClear]
        · simp
      | errorEvent =>
        simp only [step, handleOpenAIEvent]
        split <;> simp
    | openaiClosed =>
      simp only [step]
      split <;> simp
    | twilioClose =>
      simp only [step]
      split <;> simp [isClear]
  · intro es₁ es₂ now hlive
    rw [run_append]
    have hmid :
        run (run c m es₁).1 (run c m es₁).2.1 (.openaiMsg .speechStarted now :: es₂)
          = ((run (run c m es₁).1 (run c m es₁).2.1 es₂).1,
             (run (run c m es₁).1 (run c m es₁).2.1 es₂).2.1,
             .toTwilio (.clearOut (run c m es₁).1.streamSid)
               :: (run (run c m es₁).1 (run c m es₁).2.1 es₂).2.2) := by
      simp [run, hstep (run c m es₁).1 (run c m es₁).2.1 now hlive]
    rw [hmid]

/-- Witness for `one_clear_per_speech_started`: a concrete live connection
receiving a speech-started event between two media frames. -/
theorem one_clear_per_speech_started_witness :
    (connOpened.openaiWs.isSome = true
     ∧ step connOpened mapAB (.openaiMsg .speechStarted 7)
        = (connOpened, mapAB, [.toTwilio (.clearOut connOpened.streamSid)]))
    ∧ ((∀ now, ConnEvent.twilioMsg (.media "AAAA") ≠ .openaiMsg .speechStarted now)
       ∧ (step connOpened mapAB (.twilioMsg (.media "AAAA"))).2.2.filter isClear = [])
    ∧ ((run connOpened mapAB [.twilioMsg (.media "AAAA")]).1.openaiWs.isSome = true
       ∧ run connOpened mapAB
          ([.twilioMsg (.media "AAAA")]
            ++ .openaiMsg .speechStarted 7 :: [.twilioMsg (.media "BBBB")])
          = ((run (run connOpened mapAB [.twilioMsg (.media "AAAA")]).1
                (run connOpened mapAB [.twilioMsg (.media "AAAA")]).2.1
                [.twilioMsg (.media "BBBB")]).1,
             (run (run connOpened mapAB [.twilioMsg (.media "AAAA")]).1
                (run connOpened mapAB [.twilioMsg (.media "AAAA")]).2.1
                [.twilioMsg (.media "BBBB")]).2.1,
             (run connOpened mapAB [.twilioMsg (.media "AAAA")]).2.2
               ++ .toTwilio (.clearOut
                    (run connOpened mapAB [.twilioMsg (.media "AAAA")]).1.streamSid)
               :: (run (run connOpened mapAB [.twilioMsg (.media "AAAA")]).1
                    (run connOpened mapAB [.twilioMsg (.media "AAAA")]).2.1
                    [.twilioMsg (.media "BBBB")]).2.2)) :=
  ⟨⟨by decide,
    (one_clear_per_speech_started connOpened mapAB).1 7 (by decide)⟩,
   ⟨fun now h => ConnEvent.noConfusion h,
    (one_clear_per_speech_started connOpened mapAB).2.1
      (.twilioMsg (.media "AAAA")) (fun now h => ConnEvent.noConfusion h)⟩,
   ⟨by decide,
    (one_clear_per_speech_started connOpened mapAB).2.2
      [.twilioMsg (.media "AAAA")] [.twilioMsg (.media "BBBB")] 7 (by decide)⟩⟩

theorem find_eraseSession_self (m : SessionMap) (sid : String) :
    find (eraseSession m sid) sid = none := by
  induction m with
  | nil => rfl
  | cons p rest ih =>
    by_cases hk : p.1 = sid <;> simp [eraseSession, find, hk, ih]

theorem find_none_eraseSession (m : SessionMap) (k sid : String)
    (h : find m sid = none) : find (eraseSession m k) sid = none := by
  induction m with
  | nil => rfl
  | cons p rest ih =>
    obtain ⟨k0, s0⟩ := p
    by_cases hp : k0 = sid
    · simp [find, hp] at h
    · simp only [find, if_neg hp] at h
      by_cases hk : k0 = k
      · simp [eraseSession, hk, ih h]
      · simp [eraseSession, hk, find, hp, ih h]

theorem find_none_sweepOnce (m : SessionMap) (now : Nat) (sid : String)
    (h : find m sid = none) : find (sweepOnce now m) sid = none := by
  induction m with
  | nil => rfl
  | cons p rest ih =>
    obtain ⟨k0, s0⟩ := p
    by_cases hp : k0 = sid
    · simp [find, hp] at h
    · simp only [find, if_neg hp] at h
      by_cases hage : now - s0.createdAt > maxSessionAgeMs
      · simp [sweepOnce, hage, ih h]
      · simp [sweepOnce, hage, find, hp, ih h]

theorem find_sweepOnce_young (m : SessionMap) (now : Nat) (sid : String)
    (s : Session) (h : find (sweepOnce now m) sid = some s) :
    now - s.createdAt ≤ maxSessionAgeMs := by
  induction m with
  | nil => simp [sweepOnce, find] at h
  | cons p rest ih =>
    by_cases hage : now - p.2.createdAt > maxSessionAgeMs
    · simp only [sweepOnce, if_pos hage] at h
      exact ih h
    · simp only [sweepOnce, if_neg hage] at h
      by_cases hp : p.1 = sid
      · simp only [find, if_pos hp] at h
        cases h
        omega
      · simp only [find, if_neg hp] at h
        exact ih h

/-- C8: finalize on a live session always schedules deletion exactly one
grace period later; a fired deletion timer removes the session; after a
sweep pass no retrievable session is older than the hard maximum — the
sweep condition reads only `createdAt`, so this holds regardless of the
`ended` flag, covering sessions that never saw a start event; and
cleanup actions never resurrect a removed session, so from the first
trigger that fires — whichever occurs first — the session stays gone. -/
theorem session_deletion (env : Env) :
    (∀ now m sid csid o s, find m sid = some s → s.ended = false →
      (handleCallEnd env now m (some sid) csid o).scheduledDelete
        = some (sid, now + gracePeriodMs))
    ∧ (∀ m sid, find (applyCleanup m (.execDelete sid)) sid = none)
    ∧ (∀ m now sid s, find (applyCleanup m (.sweepTick now)) sid = some s →
        now - s.createdAt ≤ maxSessionAgeMs)
    ∧ (∀ m as sid, find m sid = none → find (runCleanup m as) sid = none) := by
  refine ⟨?_, ?_, ?_, ?_⟩
  · intro now m sid csid o s hfind hend
    simp [handleCallEnd, hfind, hend]
  · intro m sid
    exact find_eraseSession_self m sid
  · intro m now sid s h
    exact find_sweepOnce_young m now sid s h
  · intro m as sid h
    induction as generalizing m with
    | nil => exact h
    | cons a rest ih =>
      refine ih (applyCleanup m a) ?_
      cases a with
      | execDelete k => exact find_none_eraseSession m k sid h
      | sweepTick now => exact find_none_sweepOnce m now sid h

/-- Session map holding one session that is 3 hours old at time
`10800000 + 2000` and was never finalized. -/
def mapStale : SessionMap := [("sidB", sesB)]

/-- Witness for `session_deletion`: the concrete session `sesA` is
finalized (schedule at `4600 + gracePeriodMs`); deleting "sidA" makes it
unreachable; a sweep at a time three hours past `sesB.createdAt` leaves
nothing stale retrievable; and later cleanup keeps "sidA" absent. -/
theorem session_deletion_witness :
    (find mapAB "sidA" = some sesA ∧ sesA.ended = false
     ∧ (handleCallEnd envFull 4600 mapAB (some "sidA") (some "CA1")
          .ok).scheduledDelete = some ("sidA", 4600 + gracePeriodMs))
    ∧ find (applyCleanup mapAB (.execDelete "sidA")) "sidA" = none
    ∧ (∀ s, find (applyCleanup mapStale (.sweepTick 10802000)) "sidB" = some s →
        10802000 - s.createdAt ≤ maxSessionAgeMs)
    ∧ (find (applyCleanup mapStale (.sweepTick 10802000)) "sidB" = none
       ∧ (find mapStale "sidA" = none
          ∧ find (runCleanup mapStale
              [.sweepTick 10802000, .execDelete "sidB"]) "sidA" = none)) :=
  ⟨⟨by decide, by decide,
    (session_deletion envFull).1 4600 mapAB "sidA" (some "CA1") .ok sesA
      (by decide) (by decide)⟩,
   (session_deletion envFull).2.1 mapAB "sidA",
   fun s h => (session_deletion envFull).2.2.1 mapStale 10802000 "sidB" s h,
   ⟨by decide,
    ⟨by decide,
     (session_deletion envFull).2.2.2 mapStale
       [.sweepTick 10802000, .execDelete "sidB"] "sidA" (by decide)⟩⟩⟩

end Bridge
